import Mathlib

/-!
Verification of the `flicky` maze game (src/game.js).

Shallow embedding of the game logic in `src/game.js`: a player moves on a
continuous plane in grid steps, walls block movement, moving hazards drain
energy on contact, a goal tile ends the round in a win, and energy reaching
zero ends it in a loss.  Numeric quantities are embedded as follows:

* positions, sizes and speeds are `ℚ` (hazard 2 has `speedX = 1.5`);
* `energy` and `steps` are integers in the source (initialised to `100`/`0`
  and changed only by integer increments), embedded as `ℤ` and `ℕ`;
* `direction` is the integer sign `1` / `-1`, embedded as `ℤ`;
* `Math.random()` draws are modelled by an explicit stream `rnd : ℕ → ℚ`
  of sampled values, consumed by the confetti burst;
* `checkGoalReached` compares `Math.sqrt(dx*dx+dy*dy) < r`; both sides are
  nonnegative in every use (`r = player.size/2 + goal.size/2 = 35`), so it
  is embedded as the equivalent exact comparison `dx^2 + dy^2 < r^2`.

DOM, audio and rendering calls (`showWinScreen`, `playMoveSound`,
`ctx.fillRect`, ...) have no effect on the simulation state and are omitted;
the screen-shake scalar `shakeAmount`, which the render phase of `gameLoop`
does mutate, is kept.
-/

set_option linter.unusedVariables false

namespace Flicky

/-- Game state: `let gameState = 'title'; // title, playing, won, lost`. -/
inductive GState where
  | title
  | playing
  | won
  | lost
deriving DecidableEq, Repr

/-- The player object (`player` in src/game.js). -/
structure Player where
  x : ℚ
  y : ℚ
  size : ℚ
  speed : ℚ
  energy : ℤ
  steps : ℕ
deriving DecidableEq, Repr

/-- The goal object (`goal` in src/game.js); `pulseSize` is render-only
and omitted. -/
structure Goal where
  x : ℚ
  y : ℚ
  size : ℚ
deriving DecidableEq, Repr

/-- A static wall rectangle. -/
structure Wall where
  x : ℚ
  y : ℚ
  width : ℚ
  height : ℚ
deriving DecidableEq, Repr

/-- A moving hazard rectangle.  `speedY` exists in the source data but is
always `0` and never used by `updateHazards`. -/
structure Hazard where
  x : ℚ
  y : ℚ
  width : ℚ
  height : ℚ
  speedX : ℚ
  speedY : ℚ
  direction : ℤ
deriving DecidableEq, Repr

/-- A confetti particle; `color` is embedded as its numeric hue. -/
structure Particle where
  x : ℚ
  y : ℚ
  vx : ℚ
  vy : ℚ
  hue : ℚ
  size : ℚ
  life : ℚ
deriving DecidableEq, Repr

/-- The whole mutable simulation state (the globals of src/game.js that the
simulation reads or writes): `gameState`, `player`, `hazards`, `particles`,
`shakeAmount`.  `walls` and `goal` are never mutated and stay global
constants; `isMuted`, the timer and the audio context do not influence the
simulation. -/
structure Game where
  gameState : GState
  player : Player
  hazards : List Hazard
  particles : List Particle
  shakeAmount : ℚ
deriving DecidableEq, Repr

/-- `player` initial value / the fields reset by `resetGame`. -/
def initialPlayer : Player :=
  { x := 50, y := 550, size := 30, speed := 40, energy := 100, steps := 0 }

/-- `goal` (src/game.js line 44). -/
def goal : Goal := { x := 750, y := 50, size := 40 }

/-- `walls` (src/game.js lines 52-65). -/
def walls : List Wall :=
  [ { x := 0,   y := 0,   width := 800, height := 20 },
    { x := 0,   y := 580, width := 800, height := 20 },
    { x := 0,   y := 0,   width := 20,  height := 600 },
    { x := 780, y := 0,   width := 20,  height := 600 },
    { x := 200, y := 100, width := 20,  height := 300 },
    { x := 400, y := 200, width := 20,  height := 380 },
    { x := 600, y := 20,  width := 20,  height := 400 } ]

/-- `hazards` initial value (src/game.js lines 68-75). -/
def initialHazards : List Hazard :=
  [ { x := 100, y := 200, width := 100, height := 20, speedX := 2,   speedY := 0, direction := 1 },
    { x := 300, y := 400, width := 120, height := 20, speedX := 3/2, speedY := 0, direction := -1 },
    { x := 500, y := 300, width := 80,  height := 20, speedX := 3,   speedY := 0, direction := 1 } ]

/-- The strict axis-aligned bounding-box overlap test shared (textually) by
`checkWallCollision` and `checkHazardCollision`: a box at `(ax, ay)` of size
`aw × ah` against a box at `(bx, by)` of size `bw × bh`, all four
comparisons strict. -/
def boxesOverlap (ax ay aw ah bx bY bw bh : ℚ) : Bool :=
  decide (ax < bx + bw) && decide (ax + aw > bx) &&
  decide (ay < bY + bh) && decide (ay + ah > bY)

/-- `checkWallCollision(newX, newY)`: tests the candidate player box against
every wall (reads the global `walls` and `player.size`). -/
def checkWallCollision (size newX newY : ℚ) : Bool :=
  walls.any fun wall =>
    decide (newX < wall.x + wall.width) && decide (newX + size > wall.x) &&
    decide (newY < wall.y + wall.height) && decide (newY + size > wall.y)

/-- `checkHazardCollision()`: tests the player box against every hazard in
the given list. -/
def checkHazardCollision (p : Player) (hs : List Hazard) : Bool :=
  hs.any fun hazard =>
    decide (p.x < hazard.x + hazard.width) && decide (p.x + p.size > hazard.x) &&
    decide (p.y < hazard.y + hazard.height) && decide (p.y + p.size > hazard.y)

/-- `checkGoalReached()`: Euclidean distance between the player-box centre
and the goal centre, compared against the sum of half-sizes.  Embedded via
squared distances (equivalent: both sides of the source comparison are
nonnegative). -/
def checkGoalReached (p : Player) (g : Goal) : Bool :=
  let dx := p.x + p.size / 2 - (g.x + g.size / 2)
  let dy := p.y + p.size / 2 - (g.y + g.size / 2)
  decide (dx ^ 2 + dy ^ 2 < (p.size / 2 + g.size / 2) ^ 2)

/-- The 50-particle confetti burst pushed by `createConfetti()`.  Particle
`i` consumes the four `Math.random()` draws `rnd (4*i) .. rnd (4*i+3)`
(vx, vy, hue, size); every particle starts at the canvas centre `(400, 300)`
with `life = 1`. -/
def confettiBurst (rnd : ℕ → ℚ) : List Particle :=
  (List.range 50).map fun i =>
    { x := 400, y := 300,
      vx := (rnd (4 * i) - 1/2) * 10,
      vy := (rnd (4 * i + 1) - 1/2) * 10 - 5,
      hue := rnd (4 * i + 2) * 360,
      size := rnd (4 * i + 3) * 5 + 2,
      life := 1 }

/-- `createConfetti()` appends the burst to the global particle list. -/
def createConfetti (ps : List Particle) (rnd : ℕ → ℚ) : List Particle :=
  ps ++ confettiBurst rnd

/-- One particle update inside `updateParticles`:
`p.x += p.vx; p.y += p.vy; p.vy += 0.3; p.life -= 0.02`. -/
def stepParticle (p : Particle) : Particle :=
  { p with x := p.x + p.vx, y := p.y + p.vy, vy := p.vy + 3/10, life := p.life - 1/50 }

/-- `updateParticles()`: update every particle, then splice out those with
`life <= 0` (the source's backwards-iterating splice equals
update-then-filter). -/
def updateParticles (ps : List Particle) : List Particle :=
  (ps.map stepParticle).filter fun p => decide (p.life > 0)

/-- One hazard update inside `updateHazards`:
`hazard.x += hazard.speedX * hazard.direction;` then
`if (hazard.x < 30 || hazard.x + hazard.width > 770) hazard.direction *= -1`. -/
def updateHazard (h : Hazard) : Hazard :=
  let x := h.x + h.speedX * (h.direction : ℚ)
  if x < 30 ∨ x + h.width > 770 then
    { h with x := x, direction := h.direction * (-1) }
  else
    { h with x := x }

/-- `updateHazards()`. -/
def updateHazards (hs : List Hazard) : List Hazard :=
  hs.map updateHazard

/-- The player record after the successful-move mutations of `movePlayer`
(`player.x = newX; player.y = newY; player.steps++; player.energy--`). -/
def movedPlayer (p : Player) (dx dy : ℤ) : Player :=
  { p with x := p.x + (dx : ℚ) * p.speed,
           y := p.y + (dy : ℚ) * p.speed,
           steps := p.steps + 1,
           energy := p.energy - 1 }

/-- `movePlayer(dx, dy)`.  Returns immediately unless `playing`; rejects
wall-colliding candidates with no state change; otherwise moves, increments
`steps`, decrements `energy`, then checks energy exhaustion (sets `lost`)
and afterwards goal arrival (sets `won`, emits confetti). -/
def movePlayer (s : Game) (dx dy : ℤ) (rnd : ℕ → ℚ) : Game :=
  if s.gameState ≠ GState.playing then s
  else
    let newX := s.player.x + (dx : ℚ) * s.player.speed
    let newY := s.player.y + (dy : ℚ) * s.player.speed
    if checkWallCollision s.player.size newX newY then s
    else
      let p1 : Player := movedPlayer s.player dx dy
      let s1 : Game := { s with player := p1 }
      let s2 : Game :=
        if p1.energy ≤ 0 then { s1 with gameState := GState.lost } else s1
      if checkGoalReached p1 goal then
        { s2 with gameState := GState.won,
                  particles := createConfetti s2.particles rnd }
      else s2

/-- The screen-shake decay done by the render phase of `gameLoop` every
frame: `shakeAmount *= 0.9; if (shakeAmount < 0.1) shakeAmount = 0` while
positive. -/
def shakeDecay (a : ℚ) : ℚ :=
  if a > 0 then
    let a1 := a * (9/10)
    if a1 < 1/10 then 0 else a1
  else a

/-- One frame of `gameLoop()` (the simulation part; drawing is omitted,
the shake decay it performs is kept).  While `playing`: update hazards,
particles, then apply the hazard-contact penalty (`energy -= 10`, shake,
clamp to `0` and transition to `lost` when exhausted).  While `won`: only
particles keep animating. -/
def tick (s : Game) : Game :=
  let s0 : Game := { s with shakeAmount := shakeDecay s.shakeAmount }
  match s0.gameState with
  | GState.playing =>
      let hs := updateHazards s0.hazards
      let ps := updateParticles s0.particles
      let s1 : Game := { s0 with hazards := hs, particles := ps }
      if checkHazardCollision s1.player hs then
        let s2 : Game :=
          { s1 with player := { s1.player with energy := s1.player.energy - 10 },
                    shakeAmount := 10 }
        if s2.player.energy ≤ 0 then
          { s2 with player := { s2.player with energy := 0 },
                    gameState := GState.lost }
        else s2
      else s1
  | GState.won => { s0 with particles := updateParticles s0.particles }
  | _ => s0

/-- `resetGame()`: resets the player fields, the `x`/`direction` of the
three hazards (their other fields are never mutated), clears particles and
shake.  The timer reset is not modelled.  `gameState` is untouched. -/
def resetGame (s : Game) : Game :=
  { s with player := initialPlayer,
           hazards :=
             match s.hazards with
             | [h0, h1, h2] =>
                 [ { h0 with x := 100, direction := 1 },
                   { h1 with x := 300, direction := -1 },
                   { h2 with x := 500, direction := 1 } ]
             | other => other,
           particles := [],
           shakeAmount := 0 }

/-- `startGame()`: `resetGame(); gameState = 'playing'` (screen toggling
omitted). -/
def startGame (s : Game) : Game :=
  { resetGame s with gameState := GState.playing }

/-- `showTitleScreen()`: `gameState = 'title'` (screen toggling omitted). -/
def showTitleScreen (s : Game) : Game :=
  { s with gameState := GState.title }

/-- The initial global state of the script. -/
def initGame : Game :=
  { gameState := GState.title, player := initialPlayer,
    hazards := initialHazards, particles := [], shakeAmount := 0 }

/-- The externally triggered events that mutate simulation state: a
movement key (`movePlayer`), an animation frame (`gameLoop`), a
start/restart button (`startGame`), the R key while playing (`resetGame`),
and the back button (`showTitleScreen`). -/
inductive Act where
  | move (dx dy : ℤ) (rnd : ℕ → ℚ)
  | frame
  | start
  | restartKey
  | backToTitle

/-- Event dispatch: how each event transforms the state. -/
def applyAct (s : Game) : Act → Game
  | Act.move dx dy rnd => movePlayer s dx dy rnd
  | Act.frame => tick s
  | Act.start => startGame s
  | Act.restartKey => if s.gameState = GState.playing then resetGame s else s
  | Act.backToTitle => showTitleScreen s

/-- The states reachable from the script's initial state through any
sequence of events. -/
inductive Reachable : Game → Prop where
  | init : Reachable initGame
  | step {s : Game} (a : Act) : Reachable s → Reachable (applyAct s a)

/-- A point strictly inside an axis-aligned box (its interior). -/
abbrev inOpenBox (x y bx bY bw bh : ℚ) : Prop :=
  bx < x ∧ x < bx + bw ∧ bY < y ∧ y < bY + bh

/-- A point inside or on the boundary of an axis-aligned box. -/
abbrev inClosedBox (x y bx bY bw bh : ℚ) : Prop :=
  bx ≤ x ∧ x ≤ bx + bw ∧ bY ≤ y ∧ y ≤ bY + bh

/-- Invariant carried by each hazard under `updateHazard`: fixed speed `s`
and width `w`, direction a sign, horizontal position within one tick's
travel of the `[30, 770]` margins, and when the position is beyond a
margin the direction already points back inside. -/
abbrev HazInv (s w : ℚ) (h : Hazard) : Prop :=
  h.speedX = s ∧ h.width = w ∧
  (h.direction = 1 ∨ h.direction = -1) ∧
  30 - s ≤ h.x ∧ h.x + w ≤ 770 + s ∧
  (h.x < 30 → h.direction = 1) ∧ (770 < h.x + w → h.direction = -1)

/-- A fixed stream of `Math.random()` draws (all `0`), used for concrete
runs. -/
def rndZero : ℕ → ℚ := fun _ => 0

/-- A playing state one step left of the goal with 1 energy left: the move
`(1, 0)` from here is wall-free, zeroes the energy and reaches the goal. -/
def goalAdjacentState : Game :=
  { gameState := GState.playing,
    player := { x := 710, y := 50, size := 30, speed := 40, energy := 1, steps := 7 },
    hazards := initialHazards, particles := [], shakeAmount := 0 }

/-- The spawn state with energy already down to 1. -/
def lowEnergyState : Game :=
  { startGame initGame with
      player := { initialPlayer with energy := 1 } }

/-- A playing state whose player box overlaps hazard 1 both before and
after the next hazard update. -/
def hazardContactState : Game :=
  { gameState := GState.playing,
    player := { x := 110, y := 195, size := 30, speed := 40, energy := 100, steps := 0 },
    hazards := initialHazards, particles := [], shakeAmount := 0 }

/-- A playing state where the player box overlaps two hazards at once
after the next hazard update. -/
def doubleHazardState : Game :=
  { gameState := GState.playing,
    player := { x := 110, y := 195, size := 30, speed := 40, energy := 100, steps := 0 },
    hazards :=
      [ { x := 100, y := 200, width := 100, height := 20, speedX := 2, speedY := 0, direction := 1 },
        { x := 90,  y := 190, width := 100, height := 20, speedX := 1, speedY := 0, direction := 1 } ],
    particles := [], shakeAmount := 0 }

/-- The second documented hazard (the one with fractional speed 1.5). -/
def hazardTwo : Hazard :=
  { x := 300, y := 400, width := 120, height := 20, speedX := 3/2, speedY := 0, direction := -1 }

/-- The state after five `(1, 0)` moves from a fresh game. -/
def fiveRightFromSpawn : Game :=
  movePlayer (movePlayer (movePlayer (movePlayer (movePlayer
    (startGame initGame) 1 0 rndZero) 1 0 rndZero) 1 0 rndZero) 1 0 rndZero) 1 0 rndZero

end Flicky

namespace Flicky

section

attribute [local semireducible] Rat.add Rat.mul Rat.sub Rat.inv

/-- `movePlayer` is the identity outside the `playing` state. -/
theorem movePlayer_of_not_playing (s : Game) (dx dy : ℤ) (rnd : ℕ → ℚ)
    (h : s.gameState ≠ GState.playing) : movePlayer s dx dy rnd = s := by
  simp [movePlayer, h]

/-- `movePlayer` is the identity when the candidate box hits a wall. -/
theorem movePlayer_of_wall (s : Game) (dx dy : ℤ) (rnd : ℕ → ℚ)
    (hwall : checkWallCollision s.player.size (s.player.x + (dx : ℚ) * s.player.speed)
      (s.player.y + (dy : ℚ) * s.player.speed) = true) :
    movePlayer s dx dy rnd = s := by
  by_cases hplay : s.gameState = GState.playing
  · simp [movePlayer, hplay, hwall]
  · simp [movePlayer, hplay]

/-- Closed form of `movePlayer` on a successful move: the player advances,
the state becomes `won` when the goal check passes (overriding the `lost`
set by the energy check), else `lost` on exhausted energy, else stays
`playing`; confetti is emitted exactly on the win. -/
theorem movePlayer_success (s : Game) (dx dy : ℤ) (rnd : ℕ → ℚ)
    (hplay : s.gameState = GState.playing)
    (hwall : checkWallCollision s.player.size (s.player.x + (dx : ℚ) * s.player.speed)
      (s.player.y + (dy : ℚ) * s.player.speed) = false) :
    movePlayer s dx dy rnd =
      { s with
          player := movedPlayer s.player dx dy,
          gameState :=
            if checkGoalReached (movedPlayer s.player dx dy) goal then GState.won
            else if (movedPlayer s.player dx dy).energy ≤ 0 then GState.lost
            else GState.playing,
          particles :=
            if checkGoalReached (movedPlayer s.player dx dy) goal then
              createConfetti s.particles rnd
            else s.particles } := by
  simp only [movePlayer, hplay, ne_eq, not_true_eq_false, if_false, hwall,
    Bool.false_eq_true, ite_false]
  split_ifs <;> rfl

/-- The player record after a successful move. -/
theorem movePlayer_success_player (s : Game) (dx dy : ℤ) (rnd : ℕ → ℚ)
    (hplay : s.gameState = GState.playing)
    (hwall : checkWallCollision s.player.size (s.player.x + (dx : ℚ) * s.player.speed)
      (s.player.y + (dy : ℚ) * s.player.speed) = false) :
    (movePlayer s dx dy rnd).player = movedPlayer s.player dx dy := by
  rw [movePlayer_success s dx dy rnd hplay hwall]

/-- The game state after a successful move. -/
theorem movePlayer_success_gameState (s : Game) (dx dy : ℤ) (rnd : ℕ → ℚ)
    (hplay : s.gameState = GState.playing)
    (hwall : checkWallCollision s.player.size (s.player.x + (dx : ℚ) * s.player.speed)
      (s.player.y + (dy : ℚ) * s.player.speed) = false) :
    (movePlayer s dx dy rnd).gameState =
      (if checkGoalReached (movedPlayer s.player dx dy) goal then GState.won
       else if (movedPlayer s.player dx dy).energy ≤ 0 then GState.lost
       else GState.playing) := by
  rw [movePlayer_success s dx dy rnd hplay hwall]

/-- The particle list after a successful move. -/
theorem movePlayer_success_particles (s : Game) (dx dy : ℤ) (rnd : ℕ → ℚ)
    (hplay : s.gameState = GState.playing)
    (hwall : checkWallCollision s.player.size (s.player.x + (dx : ℚ) * s.player.speed)
      (s.player.y + (dy : ℚ) * s.player.speed) = false) :
    (movePlayer s dx dy rnd).particles =
      (if checkGoalReached (movedPlayer s.player dx dy) goal then
        createConfetti s.particles rnd
       else s.particles) := by
  rw [movePlayer_success s dx dy rnd hplay hwall]

/-- C1: if a single successful move both decrements energy to 0 and
satisfies the goal-reached test, the final game state after the move is
`won` (the energy-exhaustion check runs first and sets `lost`, but the
goal-reached check runs after it and overrides the state to `won`); the
persisted energy is the decremented 0. -/
theorem spec_C1 (s : Game) (dx dy : ℤ) (rnd : ℕ → ℚ)
    (hplay : s.gameState = GState.playing)
    (hwall : checkWallCollision s.player.size (s.player.x + (dx : ℚ) * s.player.speed)
      (s.player.y + (dy : ℚ) * s.player.speed) = false)
    (henergy : s.player.energy = 1)
    (hgoal : checkGoalReached (movedPlayer s.player dx dy) goal = true) :
    (movePlayer s dx dy rnd).gameState = GState.won ∧
    (movePlayer s dx dy rnd).player.energy = 0 := by
  constructor
  · rw [movePlayer_success_gameState s dx dy rnd hplay hwall]
    simp [hgoal]
  · rw [movePlayer_success_player s dx dy rnd hplay hwall]
    simp [movedPlayer, henergy]

/-- Witness for C1 at a concrete reach-the-goal-with-last-energy state. -/
theorem spec_C1_witness :
    (movePlayer goalAdjacentState 1 0 rndZero).gameState = GState.won ∧
    (movePlayer goalAdjacentState 1 0 rndZero).player.energy = 0 :=
  spec_C1 goalAdjacentState 1 0 rndZero (by decide) (by decide) (by decide) (by decide)

/-- C2 (amended): if energy is 1 and the player makes one more successful
move, energy becomes 0, and the game state transitions to `lost` only when
that move does not also reach the goal; when it does, the goal check runs
last and the final state is `won` instead. -/
theorem spec_C2 (s : Game) (dx dy : ℤ) (rnd : ℕ → ℚ)
    (hplay : s.gameState = GState.playing)
    (hwall : checkWallCollision s.player.size (s.player.x + (dx : ℚ) * s.player.speed)
      (s.player.y + (dy : ℚ) * s.player.speed) = false)
    (henergy : s.player.energy = 1) :
    (movePlayer s dx dy rnd).player.energy = 0 ∧
    (movePlayer s dx dy rnd).gameState =
      (if checkGoalReached (movedPlayer s.player dx dy) goal then GState.won
       else GState.lost) := by
  refine ⟨?_, ?_⟩
  · rw [movePlayer_success_player s dx dy rnd hplay hwall]
    simp [movedPlayer, henergy]
  · rw [movePlayer_success_gameState s dx dy rnd hplay hwall]
    by_cases hgoal : checkGoalReached (movedPlayer s.player dx dy) goal = true
    · simp [hgoal]
    · simp only [Bool.not_eq_true] at hgoal
      simp [hgoal, movedPlayer, henergy]

/-- Counterexample to C2 as stated: from `goalAdjacentState` (energy 1, one
wall-free step left of the goal) the successful move `(1, 0)` zeroes energy
and reaches the goal, and the final state is `won`, not `lost`. -/
theorem spec_C2_counterexample :
    (movePlayer goalAdjacentState 1 0 rndZero).player.energy = 0 ∧
    checkGoalReached (movedPlayer goalAdjacentState.player 1 0) goal = true ∧
    (movePlayer goalAdjacentState 1 0 rndZero).gameState ≠ GState.lost := by
  refine ⟨by decide, by decide, ?_⟩
  intro h
  exact absurd ((by decide : (movePlayer goalAdjacentState 1 0 rndZero).gameState = GState.won) ▸ h)
    (by decide)

/-- Witness for C2 (amended) at the spawn with energy 1: the move costs the
last energy, the goal is far, and the round is lost. -/
theorem spec_C2_witness :
    (movePlayer lowEnergyState 1 0 rndZero).player.energy = 0 ∧
    (movePlayer lowEnergyState 1 0 rndZero).gameState =
      (if checkGoalReached (movedPlayer lowEnergyState.player 1 0) goal then GState.won
       else GState.lost) :=
  spec_C2 lowEnergyState 1 0 rndZero (by decide) (by decide) (by decide)

/-- C4: a candidate move whose target bounding box overlaps some wall is
rejected with no state change at all: the whole game state, and in
particular player position, energy and step counter, are unchanged. -/
theorem spec_C4 (s : Game) (dx dy : ℤ) (rnd : ℕ → ℚ)
    (hwall : checkWallCollision s.player.size (s.player.x + (dx : ℚ) * s.player.speed)
      (s.player.y + (dy : ℚ) * s.player.speed) = true) :
    movePlayer s dx dy rnd = s ∧
    (movePlayer s dx dy rnd).player.x = s.player.x ∧
    (movePlayer s dx dy rnd).player.y = s.player.y ∧
    (movePlayer s dx dy rnd).player.energy = s.player.energy ∧
    (movePlayer s dx dy rnd).player.steps = s.player.steps := by
  have h := movePlayer_of_wall s dx dy rnd hwall
  exact ⟨h, by rw [h], by rw [h], by rw [h], by rw [h]⟩

/-- Witness for C4: from the spawn, moving down runs into the bottom wall
and nothing changes. -/
theorem spec_C4_witness :
    movePlayer (startGame initGame) 0 1 rndZero = startGame initGame ∧
    (movePlayer (startGame initGame) 0 1 rndZero).player.x = (startGame initGame).player.x ∧
    (movePlayer (startGame initGame) 0 1 rndZero).player.y = (startGame initGame).player.y ∧
    (movePlayer (startGame initGame) 0 1 rndZero).player.energy = (startGame initGame).player.energy ∧
    (movePlayer (startGame initGame) 0 1 rndZero).player.steps = (startGame initGame).player.steps :=
  spec_C4 (startGame initGame) 0 1 rndZero (by decide)

/-- C5: every successful move while playing increments `steps` by exactly 1
and decrements `energy` by exactly 1; five unobstructed right moves from
the spawn give position (250, 550), 5 steps, 95 energy. -/
theorem spec_C5 :
    (∀ (s : Game) (dx dy : ℤ) (rnd : ℕ → ℚ),
        s.gameState = GState.playing →
        checkWallCollision s.player.size (s.player.x + (dx : ℚ) * s.player.speed)
          (s.player.y + (dy : ℚ) * s.player.speed) = false →
        (movePlayer s dx dy rnd).player.steps = s.player.steps + 1 ∧
        (movePlayer s dx dy rnd).player.energy = s.player.energy - 1) ∧
    fiveRightFromSpawn.player.x = 250 ∧ fiveRightFromSpawn.player.y = 550 ∧
    fiveRightFromSpawn.player.steps = 5 ∧ fiveRightFromSpawn.player.energy = 95 := by
  refine ⟨fun s dx dy rnd hplay hwall => ?_, by decide, by decide, by decide, by decide⟩
  rw [movePlayer_success_player s dx dy rnd hplay hwall]
  exact ⟨rfl, rfl⟩

/-- Witness for C5 at the first right move from the spawn. -/
theorem spec_C5_witness :
    (movePlayer (startGame initGame) 1 0 rndZero).player.steps =
      (startGame initGame).player.steps + 1 ∧
    (movePlayer (startGame initGame) 1 0 rndZero).player.energy =
      (startGame initGame).player.energy - 1 :=
  spec_C5.1 (startGame initGame) 1 0 rndZero (by decide) (by decide)

/-- Closed form of one `gameLoop` frame in the `playing` state: hazards and
particles advance, and on hazard contact the 10-point penalty applies,
clamped to 0 with a transition to `lost` when it exhausts the energy. -/
theorem tick_playing (s : Game) (hplay : s.gameState = GState.playing) :
    tick s =
      (if checkHazardCollision s.player (updateHazards s.hazards) then
        (if s.player.energy - 10 ≤ 0 then
          { s with hazards := updateHazards s.hazards,
                   particles := updateParticles s.particles,
                   player := { s.player with energy := 0 },
                   gameState := GState.lost,
                   shakeAmount := 10 }
         else
          { s with hazards := updateHazards s.hazards,
                   particles := updateParticles s.particles,
                   player := { s.player with energy := s.player.energy - 10 },
                   shakeAmount := 10 })
       else
        { s with hazards := updateHazards s.hazards,
                 particles := updateParticles s.particles,
                 shakeAmount := shakeDecay s.shakeAmount }) := by
  simp only [tick, hplay]

/-- A frame in the `playing` state changes neither the player's position
nor its size, and keeps the step counter. -/
theorem tick_playing_player_frozen (s : Game) (hplay : s.gameState = GState.playing) :
    (tick s).player.x = s.player.x ∧ (tick s).player.y = s.player.y ∧
    (tick s).player.size = s.player.size ∧ (tick s).player.steps = s.player.steps := by
  rw [tick_playing s hplay]
  split_ifs <;> exact ⟨rfl, rfl, rfl, rfl⟩

/-- The hazards after a `playing` frame. -/
theorem tick_playing_hazards (s : Game) (hplay : s.gameState = GState.playing) :
    (tick s).hazards = updateHazards s.hazards := by
  rw [tick_playing s hplay]
  split_ifs <;> rfl

/-- The persisted energy after a `playing` frame. -/
theorem tick_playing_energy (s : Game) (hplay : s.gameState = GState.playing) :
    (tick s).player.energy =
      (if checkHazardCollision s.player (updateHazards s.hazards) then
        (if s.player.energy - 10 ≤ 0 then 0 else s.player.energy - 10)
       else s.player.energy) := by
  rw [tick_playing s hplay]
  split_ifs <;> rfl

/-- The game state after a `playing` frame. -/
theorem tick_playing_gameState (s : Game) (hplay : s.gameState = GState.playing) :
    (tick s).gameState =
      (if checkHazardCollision s.player (updateHazards s.hazards) ∧
          s.player.energy - 10 ≤ 0 then GState.lost
       else GState.playing) := by
  rw [tick_playing s hplay]
  by_cases h1 : checkHazardCollision s.player (updateHazards s.hazards) = true <;>
    by_cases h2 : s.player.energy - 10 ≤ 0 <;> simp [h1, h2, hplay]

/-- A frame outside the `playing` state never touches the player. -/
theorem tick_not_playing_player (s : Game) (h : s.gameState ≠ GState.playing) :
    (tick s).player = s.player := by
  unfold tick
  rcases hg : s.gameState <;> simp [hg] at h ⊢

/-- A frame outside the `playing` state never changes the game state. -/
theorem tick_not_playing_gameState (s : Game) (h : s.gameState ≠ GState.playing) :
    (tick s).gameState = s.gameState := by
  unfold tick
  rcases hg : s.gameState <;> simp [hg] at h ⊢

/-- The safety invariant behind C3: persisted energy is never negative, and
while the game is `playing` it is at least 1. -/
def EnergyInv (s : Game) : Prop :=
  0 ≤ s.player.energy ∧ (s.gameState = GState.playing → 1 ≤ s.player.energy)

/-- The initial state satisfies the energy invariant. -/
theorem energyInv_init : EnergyInv initGame := by
  constructor <;> simp [initGame, initialPlayer, EnergyInv]

/-- Every event preserves the energy invariant. -/
theorem energyInv_step (s : Game) (a : Act) (hs : EnergyInv s) : EnergyInv (applyAct s a) := by
  obtain ⟨h0, h1⟩ := hs
  cases a with
  | move dx dy rnd =>
      by_cases hplay : s.gameState = GState.playing
      · by_cases hwall : checkWallCollision s.player.size
          (s.player.x + (dx : ℚ) * s.player.speed)
          (s.player.y + (dy : ℚ) * s.player.speed) = true
        · have hEq : applyAct s (Act.move dx dy rnd) = s :=
            movePlayer_of_wall s dx dy rnd hwall
          rw [hEq]
          exact ⟨h0, h1⟩
        · simp only [Bool.not_eq_true] at hwall
          have he1 : 1 ≤ s.player.energy := h1 hplay
          constructor
          · simp only [applyAct, movePlayer_success_player s dx dy rnd hplay hwall,
              movedPlayer]
            omega
          · intro hp
            simp only [applyAct, movePlayer_success_player s dx dy rnd hplay hwall,
              movedPlayer]
            simp only [applyAct, movePlayer_success_gameState s dx dy rnd hplay hwall,
              movedPlayer] at hp
            split_ifs at hp with hgoal hlost
            omega
      · have hEq : applyAct s (Act.move dx dy rnd) = s :=
          movePlayer_of_not_playing s dx dy rnd hplay
        rw [hEq]
        exact ⟨h0, h1⟩
  | frame =>
      by_cases hplay : s.gameState = GState.playing
      · have he1 : 1 ≤ s.player.energy := h1 hplay
        constructor
        · simp only [applyAct]
          rw [tick_playing_energy s hplay]
          split_ifs <;> omega
        · intro hp
          simp only [applyAct] at hp ⊢
          rw [tick_playing_energy s hplay]
          rw [tick_playing_gameState s hplay] at hp
          split_ifs at hp with hcl
          split_ifs with hc he
          · exact absurd ⟨hc, he⟩ hcl
          · omega
          · omega
      · constructor
        · simp only [applyAct]
          rw [tick_not_playing_player s hplay]
          exact h0
        · intro hp
          simp only [applyAct] at hp
          rw [tick_not_playing_gameState s hplay] at hp
          exact absurd hp hplay
  | start =>
      constructor <;> simp [applyAct, startGame, resetGame, initialPlayer]
  | restartKey =>
      by_cases hplay : s.gameState = GState.playing
      · constructor <;> simp [applyAct, hplay, resetGame, initialPlayer]
      · have hEq : applyAct s Act.restartKey = s := by simp [applyAct, hplay]
        rw [hEq]
        exact ⟨h0, h1⟩
  | backToTitle =>
      constructor
      · simpa [applyAct, showTitleScreen] using h0
      · intro hp
        simp [applyAct, showTitleScreen] at hp

/-- Every reachable state satisfies the energy invariant. -/
theorem reachable_energyInv (s : Game) (h : Reachable s) : EnergyInv s := by
  induction h with
  | init => exact energyInv_init
  | step a _ ih => exact energyInv_step _ a ih

/-- C3: in every reachable state the persisted energy is nonnegative, it
stays nonnegative after any further event, and a `playing` frame whose
hazard penalty would drive energy below 0 persists energy 0 and the
`lost` state. -/
theorem spec_C3 (s : Game) (hreach : Reachable s) :
    0 ≤ s.player.energy ∧
    (∀ a : Act, 0 ≤ (applyAct s a).player.energy) ∧
    (s.gameState = GState.playing →
      checkHazardCollision s.player (updateHazards s.hazards) = true →
      s.player.energy - 10 < 0 →
      (tick s).player.energy = 0 ∧ (tick s).gameState = GState.lost) := by
  obtain ⟨h0, h1⟩ := reachable_energyInv s hreach
  refine ⟨h0, fun a => (energyInv_step s a ⟨h0, h1⟩).1, fun hplay hcoll hneg => ?_⟩
  constructor
  · rw [tick_playing_energy s hplay]
    simp only [hcoll, if_true]
    split_ifs with he
    · rfl
    · omega
  · rw [tick_playing_gameState s hplay]
    have : s.player.energy - 10 ≤ 0 := by omega
    simp [hcoll, this]

/-- Witness for C3 at the initial state. -/
theorem spec_C3_witness :
    0 ≤ initGame.player.energy ∧
    (∀ a : Act, 0 ≤ (applyAct initGame a).player.energy) ∧
    (initGame.gameState = GState.playing →
      checkHazardCollision initGame.player (updateHazards initGame.hazards) = true →
      initGame.player.energy - 10 < 0 →
      (tick initGame).player.energy = 0 ∧ (tick initGame).gameState = GState.lost) :=
  spec_C3 initGame Reachable.init

/-- C6: over `K ≥ 1` consecutive `playing` frames on each of which the
player's box overlaps some hazard (as tested inside the frame, after the
hazards move), the persisted energy after the `K` frames is the starting
energy minus exactly `10 × K`, clamped at 0. -/
theorem spec_C6 (s : Game) (K : ℕ) (hK : 1 ≤ K)
    (h : ∀ i < K, (tick^[i] s).gameState = GState.playing ∧
      checkHazardCollision (tick^[i] s).player (updateHazards (tick^[i] s).hazards) = true) :
    (tick^[K] s).player.energy = max (s.player.energy - 10 * (K : ℤ)) 0 := by
  induction K with
  | zero => omega
  | succ n ih =>
      obtain ⟨hplay, hcoll⟩ := h n (Nat.lt_succ_self n)
      rw [Function.iterate_succ_apply']
      rw [tick_playing_energy _ hplay]
      simp only [hcoll, if_true]
      rcases Nat.eq_zero_or_pos n with hn | hn
      · subst hn
        simp only [Function.iterate_zero_apply] at *
        split_ifs with he <;> omega
      · have hen := ih hn (fun i hi => h i (Nat.lt_succ_of_lt hi))
        rw [hen]
        push_cast
        split_ifs with he <;> omega

/-- Witness for C6 with `K = 1` from a state inside hazard 1's band. -/
theorem spec_C6_witness :
    (tick^[1] hazardContactState).player.energy =
      max (hazardContactState.player.energy - 10 * ((1 : ℕ) : ℤ)) 0 :=
  spec_C6 hazardContactState 1 (by decide) (by decide)

/-- One hazard update preserves the hazard invariant. -/
theorem hazInv_step (sv w : ℚ) (hs : 0 ≤ sv) (h : Hazard) (hi : HazInv sv w h) :
    HazInv sv w (updateHazard h) := by
  obtain ⟨hsp, hw, hdir, hlo, hhi, hfl, hfr⟩ := hi
  unfold updateHazard
  rcases hdir with hd | hd
  · have hxd : h.speedX * ((h.direction : ℤ) : ℚ) = sv := by rw [hd, hsp]; push_cast; ring
    rw [hxd, hw]
    have hnotr : h.x + w ≤ 770 := by
      by_contra hc
      push_neg at hc
      have h2 := hfr hc
      omega
    have hge : (30 : ℚ) ≤ h.x + sv := by linarith
    by_cases hflip : h.x + sv + w > 770
    · rw [if_pos (Or.inr hflip)]
      refine ⟨hsp, rfl, Or.inr (by simp [hd]), ?_, ?_, ?_, ?_⟩
      · show 30 - sv ≤ h.x + sv
        linarith
      · show h.x + sv + w ≤ 770 + sv
        linarith
      · intro hc
        exact absurd hc (by push_neg; exact hge)
      · intro hc
        simp [hd]
    · rw [if_neg (by push_neg; exact ⟨hge, le_of_not_lt hflip⟩)]
      refine ⟨hsp, rfl, Or.inl hd, ?_, ?_, fun hc => hd, fun hc => absurd hc hflip⟩
      · show 30 - sv ≤ h.x + sv
        linarith
      · show h.x + sv + w ≤ 770 + sv
        linarith
  · have hxd : h.speedX * ((h.direction : ℤ) : ℚ) = -sv := by rw [hd, hsp]; push_cast; ring
    rw [hxd, hw]
    have hnotl : (30 : ℚ) ≤ h.x := by
      by_contra hc
      push_neg at hc
      have h2 := hfl hc
      omega
    have hler : h.x + -sv + w ≤ 770 := by linarith
    by_cases hflip : h.x + -sv < 30
    · rw [if_pos (Or.inl hflip)]
      refine ⟨hsp, rfl, Or.inl (by simp [hd]), ?_, ?_, fun hc => ?_, fun hc => ?_⟩
      · show 30 - sv ≤ h.x + -sv
        linarith
      · show h.x + -sv + w ≤ 770 + sv
        linarith
      · simp [hd]
      · exact absurd hc (by push_neg; exact hler)
    · rw [if_neg (by push_neg; exact ⟨le_of_not_lt hflip, by linarith⟩)]
      refine ⟨hsp, rfl, Or.inr hd, ?_, ?_, fun hc => absurd hc hflip, fun hc => hd⟩
      · show 30 - sv ≤ h.x + -sv
        linarith
      · show h.x + -sv + w ≤ 770 + sv
        linarith

/-- The hazard invariant holds after any number of updates. -/
theorem hazInv_iterate (sv w : ℚ) (hs : 0 ≤ sv) (h : Hazard) (hi : HazInv sv w h) (n : ℕ) :
    HazInv sv w (updateHazard^[n] h) := by
  induction n with
  | zero => simpa using hi
  | succ n ih =>
      rw [Function.iterate_succ_apply']
      exact hazInv_step sv w hs _ ih

/-- Each documented initial hazard satisfies the invariant and has a
nonnegative speed. -/
theorem initialHazards_inv (h : Hazard) (hmem : h ∈ initialHazards) :
    HazInv h.speedX h.width h ∧ 0 ≤ h.speedX := by
  simp only [initialHazards, List.mem_cons, List.not_mem_nil, or_false] at hmem
  rcases hmem with rfl | rfl | rfl <;> exact ⟨by decide, by decide⟩

/-- C7: every hazard started from its documented initial position and
direction keeps its horizontal position within one tick's travel of the
`[30, 770]` margins forever, and its direction sign flips exactly on the
ticks where the updated position crosses a margin (`x < 30` or
`x + width > 770`). -/
theorem spec_C7 (h : Hazard) (hmem : h ∈ initialHazards) (n : ℕ) :
    (30 - h.speedX ≤ (updateHazard^[n] h).x ∧
     (updateHazard^[n] h).x + h.width ≤ 770 + h.speedX) ∧
    ((updateHazard^[n + 1] h).direction ≠ (updateHazard^[n] h).direction ↔
      ((updateHazard^[n] h).x + (updateHazard^[n] h).speedX * ((updateHazard^[n] h).direction : ℚ) < 30 ∨
       (updateHazard^[n] h).x + (updateHazard^[n] h).speedX * ((updateHazard^[n] h).direction : ℚ) +
         (updateHazard^[n] h).width > 770)) := by
  obtain ⟨hinv0, hs0⟩ := initialHazards_inv h hmem
  have hinv := hazInv_iterate h.speedX h.width hs0 h hinv0 n
  obtain ⟨hsp, hw, hdir, hlo, hhi, hfl, hfr⟩ := hinv
  refine ⟨⟨hlo, hhi⟩, ?_⟩
  rw [Function.iterate_succ_apply']
  set g := updateHazard^[n] h with hg
  unfold updateHazard
  by_cases hc : g.x + g.speedX * (g.direction : ℚ) < 30 ∨
      g.x + g.speedX * (g.direction : ℚ) + g.width > 770
  · rw [if_pos hc]
    simp only [hc, iff_true]
    show g.direction * -1 ≠ g.direction
    rcases hdir with hd | hd <;> rw [hd] <;> decide
  · rw [if_neg hc]
    simp only [hc, iff_false]
    show ¬(g.direction ≠ g.direction)
    simp

/-- Witness for C7 at the fractional-speed hazard after 5 ticks. -/
theorem spec_C7_witness :
    (30 - hazardTwo.speedX ≤ (updateHazard^[5] hazardTwo).x ∧
     (updateHazard^[5] hazardTwo).x + hazardTwo.width ≤ 770 + hazardTwo.speedX) ∧
    ((updateHazard^[5 + 1] hazardTwo).direction ≠ (updateHazard^[5] hazardTwo).direction ↔
      ((updateHazard^[5] hazardTwo).x +
          (updateHazard^[5] hazardTwo).speedX * ((updateHazard^[5] hazardTwo).direction : ℚ) < 30 ∨
       (updateHazard^[5] hazardTwo).x +
          (updateHazard^[5] hazardTwo).speedX * ((updateHazard^[5] hazardTwo).direction : ℚ) +
         (updateHazard^[5] hazardTwo).width > 770)) :=
  spec_C7 hazardTwo (by decide) 5

/-- C8: the strict bounding-box overlap test shared by the wall and hazard
collision checks reports no collision for rectangles that merely touch:
whenever two positive-size boxes share a closed-box point but no interior
point, the test is `false`; and the wall and hazard checks are exactly the
any-fold of this test. -/
theorem spec_C8 (ax ay aw ah bx bY bw bh : ℚ)
    (haw : 0 < aw) (hah : 0 < ah) (hbw : 0 < bw) (hbh : 0 < bh)
    (htouch : ∃ q : ℚ × ℚ, inClosedBox q.1 q.2 ax ay aw ah ∧ inClosedBox q.1 q.2 bx bY bw bh)
    (hdisj : ¬∃ q : ℚ × ℚ, inOpenBox q.1 q.2 ax ay aw ah ∧ inOpenBox q.1 q.2 bx bY bw bh) :
    boxesOverlap ax ay aw ah bx bY bw bh = false ∧
    (∀ size newX newY : ℚ, checkWallCollision size newX newY =
      walls.any fun wall => boxesOverlap newX newY size size wall.x wall.y wall.width wall.height) ∧
    (∀ (p : Player) (hs : List Hazard), checkHazardCollision p hs =
      hs.any fun hz => boxesOverlap p.x p.y p.size p.size hz.x hz.y hz.width hz.height) := by
  refine ⟨?_, fun size newX newY => rfl, fun p hs => rfl⟩
  by_contra hov
  simp only [Bool.not_eq_false] at hov
  simp only [boxesOverlap, Bool.and_eq_true, decide_eq_true_eq] at hov
  obtain ⟨⟨⟨h1, h2⟩, h3⟩, h4⟩ := hov
  apply hdisj
  have hxm : max ax bx < min (ax + aw) (bx + bw) :=
    max_lt (lt_min (by linarith) h1) (lt_min h2 (by linarith))
  have hym : max ay bY < min (ay + ah) (bY + bh) :=
    max_lt (lt_min (by linarith) h3) (lt_min h4 (by linarith))
  refine ⟨⟨(max ax bx + min (ax + aw) (bx + bw)) / 2,
           (max ay bY + min (ay + ah) (bY + bh)) / 2⟩, ?_, ?_⟩
  · refine ⟨?_, ?_, ?_, ?_⟩
    · have := le_max_left ax bx
      linarith
    · have := min_le_left (ax + aw) (bx + bw)
      linarith
    · have := le_max_left ay bY
      linarith
    · have := min_le_left (ay + ah) (bY + bh)
      linarith
  · refine ⟨?_, ?_, ?_, ?_⟩
    · have := le_max_right ax bx
      linarith
    · have := min_le_right (ax + aw) (bx + bw)
      linarith
    · have := le_max_right ay bY
      linarith
    · have := min_le_right (ay + ah) (bY + bh)
      linarith

/-- Witness for C8 on two unit-offset boxes sharing exactly one edge. -/
theorem spec_C8_witness : boxesOverlap 0 0 10 10 10 0 10 10 = false :=
  (spec_C8 0 0 10 10 10 0 10 10 (by decide) (by decide) (by decide) (by decide)
    ⟨(10, 5), by decide, by decide⟩
    (by
      rintro ⟨q, hqa, hqb⟩
      have ha : q.1 < 0 + 10 := hqa.2.1
      have hb : (10 : ℚ) < q.1 := hqb.1
      linarith)).1

/-- Every particle of a confetti burst starts with life 1. -/
theorem confettiBurst_life (rnd : ℕ → ℚ) (p : Particle) (hp : p ∈ confettiBurst rnd) :
    p.life = 1 := by
  simp only [confettiBurst, List.mem_map] at hp
  obtain ⟨i, _, rfl⟩ := hp
  rfl

/-- A confetti burst holds exactly 50 particles. -/
theorem confettiBurst_length (rnd : ℕ → ℚ) : (confettiBurst rnd).length = 50 := by
  simp [confettiBurst]

/-- No particle with nonpositive life survives `updateParticles`. -/
theorem updateParticles_mem_pos (ps : List Particle) (p : Particle)
    (hp : p ∈ updateParticles ps) : 0 < p.life := by
  simp only [updateParticles, List.mem_filter, decide_eq_true_eq] at hp
  exact hp.2

/-- On a list whose particles all have life `c`, `updateParticles` keeps
every particle (at life `c - 1/50`) when that stays positive, and removes
every particle otherwise. -/
theorem updateParticles_const (ps : List Particle) (c : ℚ) (hc : ∀ p ∈ ps, p.life = c) :
    ((1/50 < c) → ((updateParticles ps).length = ps.length ∧
      ∀ p ∈ updateParticles ps, p.life = c - 1/50)) ∧
    ((c ≤ 1/50) → updateParticles ps = []) := by
  constructor
  · intro hlt
    constructor
    · have hkeep : (ps.map stepParticle).filter (fun p => decide (p.life > 0)) =
          ps.map stepParticle := by
        rw [List.filter_eq_self]
        intro a ha
        simp only [List.mem_map] at ha
        obtain ⟨q, hq, rfl⟩ := ha
        simp only [stepParticle, decide_eq_true_eq]
        rw [hc q hq]
        linarith
      rw [updateParticles, hkeep, List.length_map]
    · intro p hp
      have hmem : p ∈ ps.map stepParticle := List.mem_of_mem_filter hp
      simp only [List.mem_map] at hmem
      obtain ⟨q, hq, rfl⟩ := hmem
      show q.life - 1/50 = c - 1/50
      rw [hc q hq]
  · intro hle
    rw [updateParticles, List.filter_eq_nil_iff]
    intro a ha
    simp only [List.mem_map] at ha
    obtain ⟨q, hq, rfl⟩ := ha
    simp only [stepParticle, decide_eq_true_eq]
    rw [hc q hq]
    linarith

/-- For the first 49 update ticks after a burst, all 50 particles survive,
all at life `1 - k/50`. -/
theorem confetti_iterate (rnd : ℕ → ℚ) (k : ℕ) (hk : k ≤ 49) :
    (updateParticles^[k] (confettiBurst rnd)).length = 50 ∧
    ∀ p ∈ updateParticles^[k] (confettiBurst rnd), p.life = 1 - (k : ℚ) / 50 := by
  induction k with
  | zero =>
      refine ⟨confettiBurst_length rnd, fun p hp => ?_⟩
      simpa using confettiBurst_life rnd p hp
  | succ n ih =>
      have hn : n ≤ 49 := Nat.le_of_succ_le hk
      obtain ⟨hlen, hlife⟩ := ih hn
      have hn48 : (n : ℚ) ≤ 48 := by exact_mod_cast (by omega : n ≤ 48)
      have hlt : 1/50 < 1 - (n : ℚ) / 50 := by linarith
      obtain ⟨hlen2, hlife2⟩ :=
        (updateParticles_const (updateParticles^[n] (confettiBurst rnd)) (1 - (n : ℚ) / 50)
          hlife).1 hlt
      rw [Function.iterate_succ_apply']
      refine ⟨by rw [hlen2, hlen], fun p hp => ?_⟩
      rw [hlife2 p hp]
      push_cast
      ring

/-- Fifty update ticks after a burst the particle list is empty. -/
theorem confetti_empty (rnd : ℕ → ℚ) : updateParticles^[50] (confettiBurst rnd) = [] := by
  have h49 := confetti_iterate rnd 49 (le_refl 49)
  have hle : (1 : ℚ) - (49 : ℚ) / 50 ≤ 1/50 := by norm_num
  have hempty :=
    (updateParticles_const (updateParticles^[49] (confettiBurst rnd)) (1 - (49 : ℚ) / 50)
      h49.2).2 hle
  have h50 : (50 : ℕ) = 49 + 1 := rfl
  rw [h50, Function.iterate_succ_apply', hempty]

/-- C9 (amended): each win appends exactly one burst of 50 particles, all
with life 1; each update tick decrements every surviving particle's life by
exactly 1/50, and no particle with life ≤ 0 survives an update; over the
49 ticks after a burst the live count stays at 50 (it does not strictly
decrease, since all lives are equal), and on the 50th tick every particle
dies at once, so the list is empty within 50 ticks. -/
theorem spec_C9 :
    (∀ rnd : ℕ → ℚ, (confettiBurst rnd).length = 50 ∧ ∀ p ∈ confettiBurst rnd, p.life = 1) ∧
    (∀ (s : Game) (dx dy : ℤ) (rnd : ℕ → ℚ),
        s.gameState = GState.playing →
        checkWallCollision s.player.size (s.player.x + (dx : ℚ) * s.player.speed)
          (s.player.y + (dy : ℚ) * s.player.speed) = false →
        checkGoalReached (movedPlayer s.player dx dy) goal = true →
        (movePlayer s dx dy rnd).particles = s.particles ++ confettiBurst rnd) ∧
    (∀ (rnd : ℕ → ℚ) (k : ℕ), k ≤ 49 →
        (updateParticles^[k] (confettiBurst rnd)).length = 50 ∧
        ∀ p ∈ updateParticles^[k] (confettiBurst rnd), p.life = 1 - (k : ℚ) / 50) ∧
    (∀ rnd : ℕ → ℚ, updateParticles^[50] (confettiBurst rnd) = []) ∧
    (∀ (ps : List Particle) (p : Particle), p ∈ updateParticles ps → 0 < p.life) := by
  refine ⟨fun rnd => ⟨confettiBurst_length rnd, confettiBurst_life rnd⟩,
    fun s dx dy rnd hplay hwall hgoal => ?_,
    fun rnd k hk => confetti_iterate rnd k hk,
    confetti_empty,
    updateParticles_mem_pos⟩
  rw [movePlayer_success_particles s dx dy rnd hplay hwall]
  simp [hgoal, createConfetti]

/-- Counterexample to C9 as stated: one update tick after a fresh burst the
live particle count has not strictly decreased — it is still 50. -/
theorem spec_C9_counterexample :
    (confettiBurst rndZero).length = 50 ∧
    (updateParticles (confettiBurst rndZero)).length = 50 ∧
    ¬((updateParticles (confettiBurst rndZero)).length < (confettiBurst rndZero).length) :=
  ⟨by decide, by decide, by decide⟩

/-- Witness for C9 (amended): one tick after a burst all 50 particles are
still alive. -/
theorem spec_C9_witness : (updateParticles^[1] (confettiBurst rndZero)).length = 50 :=
  (spec_C9.2.2.1 rndZero 1 (by decide)).1

/-- C10: in a single playing tick the hazard-contact penalty is applied at
most once: even when the player's box overlaps two or more hazards, the
contact test only reports that some overlap exists, and the persisted
energy drops by exactly 10 (clamped at 0), not once per hazard. -/
theorem spec_C10 (s : Game)
    (hplay : s.gameState = GState.playing)
    (hcount : 2 ≤ ((updateHazards s.hazards).filter fun hz =>
        boxesOverlap s.player.x s.player.y s.player.size s.player.size
          hz.x hz.y hz.width hz.height).length) :
    checkHazardCollision s.player (updateHazards s.hazards) = true ∧
    (tick s).player.energy =
      (if s.player.energy - 10 ≤ 0 then 0 else s.player.energy - 10) := by
  have hcoll : checkHazardCollision s.player (updateHazards s.hazards) = true := by
    have hpos : 0 < ((updateHazards s.hazards).filter fun hz =>
        boxesOverlap s.player.x s.player.y s.player.size s.player.size
          hz.x hz.y hz.width hz.height).length := by omega
    obtain ⟨hz, hmem⟩ := List.exists_mem_of_length_pos hpos
    obtain ⟨hmem1, hmem2⟩ := List.mem_filter.mp hmem
    have hrfl : checkHazardCollision s.player (updateHazards s.hazards) =
        (updateHazards s.hazards).any fun hz =>
          boxesOverlap s.player.x s.player.y s.player.size s.player.size
            hz.x hz.y hz.width hz.height := rfl
    rw [hrfl, List.any_eq_true]
    exact ⟨hz, hmem1, hmem2⟩
  refine ⟨hcoll, ?_⟩
  rw [tick_playing_energy s hplay]
  simp [hcoll]

/-- Witness for C10 at a state whose player box overlaps two hazards. -/
theorem spec_C10_witness :
    checkHazardCollision doubleHazardState.player (updateHazards doubleHazardState.hazards) = true ∧
    (tick doubleHazardState).player.energy =
      (if doubleHazardState.player.energy - 10 ≤ 0 then 0
       else doubleHazardState.player.energy - 10) :=
  spec_C10 doubleHazardState (by decide) (by decide)

end

end Flicky
